import Mathlib

/-!
# PhotoVerifier — shallow embedding and verification

Shallow embedding of `src/contracts/solidity/PhotoVerifierSolidity.sol`:
a keccak-256 implementation (for `computeCommitment`), the contract state
(`attestations`, `ownerPhotoCount`, `owner`, `photoCount`), its operations,
and proofs of the specified properties.

Machine integers (`uint256`, `address`) are modelled as `Nat`; the 32-byte
width of `uint256` enters through `natToBeBytes 32`, which encodes exactly
the low 32 big-endian bytes (i.e. the value mod 2^256), matching
`abi.encodePacked(uint256,uint256)`. Counter increments cannot overflow in
any state reachable by finitely many calls short of 2^256, so they are
plain `Nat` successors, matching Solidity 0.8 checked arithmetic on all
such states.
-/

namespace PhotoVerifier

/-! ## Keccak-256 -/

/-- Round constants of Keccak-f[1600]. -/
def keccakRC : List Nat :=
  [0x0000000000000001, 0x0000000000008082, 0x800000000000808a] ++
    [0x8000000080008000, 0x000000000000808b, 0x0000000080000001] ++
    [0x8000000080008081, 0x8000000000008009, 0x000000000000008a] ++
    [0x0000000000000088, 0x0000000080008009, 0x000000008000000a] ++
    [0x000000008000808b, 0x800000000000008b, 0x8000000000008089] ++
    [0x8000000000008003, 0x8000000000008002, 0x8000000000000080] ++
    [0x000000000000800a, 0x800000008000000a, 0x8000000080008081] ++
    [0x8000000000008080, 0x0000000080000001, 0x8000000080008008]

/-- Rotation offsets of the rho step, indexed by lane index `x + 5*y`. -/
def keccakRho : List Nat :=
  [0, 1, 62, 28, 27] ++ [36, 44, 6, 55, 20] ++ [3, 10, 43, 25, 39] ++
    [41, 45, 15, 21, 8] ++ [18, 2, 61, 56, 14]

/-- Rotate a 64-bit word left by `k` bits. -/
def rotl64 (n k : Nat) : Nat :=
  (((n % 2 ^ 64) <<< (k % 64)) % 2 ^ 64) ||| ((n % 2 ^ 64) >>> (64 - k % 64))

/-- Theta step: parity-based diffusion across columns. -/
def theta (A : List Nat) : List Nat :=
  let C := (List.range 5).map (fun x =>
    A.getD x 0 ^^^ A.getD (x + 5) 0 ^^^ A.getD (x + 10) 0 ^^^
    A.getD (x + 15) 0 ^^^ A.getD (x + 20) 0)
  let D := (List.range 5).map (fun x =>
    C.getD ((x + 4) % 5) 0 ^^^ rotl64 (C.getD ((x + 1) % 5) 0) 1)
  (List.range 25).map (fun i => A.getD i 0 ^^^ D.getD (i % 5) 0)

/-- Combined rho (rotation) and pi (lane permutation) steps. -/
def rhoPi (A : List Nat) : List Nat :=
  (List.range 25).map (fun j =>
    let X := j % 5
    let Y := j / 5
    let i := (X + 3 * Y) % 5 + 5 * X
    rotl64 (A.getD i 0) (keccakRho.getD i 0))

/-- Chi step: nonlinear mixing within each row. -/
def chi (A : List Nat) : List Nat :=
  (List.range 25).map (fun i =>
    let x := i % 5
    let y := i / 5
    A.getD i 0 ^^^
      ((A.getD ((x + 1) % 5 + 5 * y) 0 ^^^ (2 ^ 64 - 1)) &&&
        A.getD ((x + 2) % 5 + 5 * y) 0))

/-- Iota step: xor the round constant into lane 0. -/
def iota (A : List Nat) (rc : Nat) : List Nat :=
  (A.getD 0 0 ^^^ rc) :: A.drop 1

/-- One round of Keccak-f[1600]. -/
def keccakRound (A : List Nat) (rc : Nat) : List Nat :=
  iota (chi (rhoPi (theta A))) rc

/-- The full 24-round Keccak-f[1600] permutation on 25 lanes of 64 bits. -/
def keccakF (A : List Nat) : List Nat :=
  keccakRC.foldl keccakRound A

/-- Interpret a byte list as a little-endian natural number. -/
def leBytesToNat (bs : List Nat) : Nat :=
  bs.foldr (fun b acc => b % 256 + 256 * acc) 0

/-- The `k` low bytes of `n`, little-endian. -/
def natToLeBytes : Nat → Nat → List Nat
  | 0, _ => []
  | k + 1, n => n % 256 :: natToLeBytes k (n / 256)

/-- The `k` low bytes of `n`, big-endian (the `uint256` ABI encoding for
`k = 32`). -/
def natToBeBytes (k n : Nat) : List Nat :=
  (natToLeBytes k n).reverse

/-- Interpret a byte list as a big-endian natural number (the `uint256`
reading of a 32-byte digest). -/
def beBytesToNat (bs : List Nat) : Nat :=
  bs.foldl (fun acc b => acc * 256 + b % 256) 0

/-- Multi-rate padding of Keccak (domain byte 0x01, final bit 0x80) at
rate 136 bytes. -/
def keccakPad (msg : List Nat) : List Nat :=
  let p := 136 - msg.length % 136
  if p == 1 then msg ++ [0x81]
  else msg ++ [0x01] ++ List.replicate (p - 2) 0 ++ [0x80]

/-- Xor one 136-byte block into the state and apply the permutation. -/
def absorbBlock (S block : List Nat) : List Nat :=
  keccakF ((List.range 25).map (fun i =>
    S.getD i 0 ^^^ (if i < 17 then leBytesToNat ((block.drop (8 * i)).take 8) else 0)))

/-- Absorb `n` rate-sized blocks taken from the front of `bs`. -/
def absorbBlocks : Nat → List Nat → List Nat → List Nat
  | 0, S, _ => S
  | n + 1, S, bs => absorbBlocks n (absorbBlock S (bs.take 136)) (bs.drop 136)

/-- Keccak-256 digest (32 bytes) of a byte list. -/
def keccak256Bytes (msg : List Nat) : List Nat :=
  let padded := keccakPad msg
  let S := absorbBlocks (padded.length / 136) (List.replicate 25 0) padded
  natToLeBytes 8 (S.getD 0 0) ++ natToLeBytes 8 (S.getD 1 0) ++
    natToLeBytes 8 (S.getD 2 0) ++ natToLeBytes 8 (S.getD 3 0)

/-- Keccak-256 digest read as a big-endian 256-bit integer, the Solidity
`uint256(keccak256(data))`. -/
def keccak256Of (msg : List Nat) : Nat :=
  beBytesToNat (keccak256Bytes msg)

/-! ## Contract state and operations -/

/-- One attestation record: `struct PhotoAttestation`. -/
structure PhotoAttestation where
  verifiedAt : Nat
  owner : Nat
  zkCommitment : Nat
deriving DecidableEq

/-- The zero value of the struct, what an absent mapping key reads as. -/
def emptyAttestation : PhotoAttestation := ⟨0, 0, 0⟩

/-- The contract storage: the two mappings, the deployer address, and the
global counter. -/
structure ContractState where
  attestations : Nat → PhotoAttestation
  ownerPhotoCount : Nat → Nat
  owner : Nat
  photoCount : Nat

/-- The constructor: empty mappings, `owner = msg.sender`, `photoCount = 0`. -/
def initState (deployer : Nat) : ContractState :=
  { attestations := fun _ => emptyAttestation
    ownerPhotoCount := fun _ => 0
    owner := deployer
    photoCount := 0 }

/-- The function `verifyPhoto`: store the attestation at `photoHash`,
increment the counter of the sender and the global counter, return the
timestamp. `msg.sender` and `block.timestamp` are the explicit `sender`
and `timestamp` arguments. -/
def verifyPhoto (s : ContractState) (sender timestamp photoHash zkCommitment : Nat) :
    ContractState × Nat :=
  ({ s with
      attestations := fun h =>
        if h = photoHash then ⟨timestamp, sender, zkCommitment⟩ else s.attestations h
      ownerPhotoCount := fun a =>
        if a = sender then s.ownerPhotoCount a + 1 else s.ownerPhotoCount a
      photoCount := s.photoCount + 1 },
    timestamp)

/-- The function `getAttestation`: the stored triple, zero if absent. -/
def getAttestation (s : ContractState) (photoHash : Nat) : Nat × Nat × Nat :=
  let att := s.attestations photoHash
  (att.verifiedAt, att.owner, att.zkCommitment)

/-- The function `computeCommitment`:
`uint256(keccak256(abi.encodePacked(photoHash, secret)))`. -/
def computeCommitment (photoHash secret : Nat) : Nat :=
  keccak256Of (natToBeBytes 32 photoHash ++ natToBeBytes 32 secret)

/-- The function `verifyZkProof`: recompute the commitment and compare it
with the stored one. -/
def verifyZkProof (s : ContractState) (photoHash secret : Nat) : Bool :=
  computeCommitment photoHash secret == (s.attestations photoHash).zkCommitment

/-- The function `isVerified`: `attestations[photoHash].verifiedAt > 0`. -/
def isVerified (s : ContractState) (photoHash : Nat) : Bool :=
  decide ((s.attestations photoHash).verifiedAt > 0)

/-- The function `getOwnerOf`: the stored owner, zero if absent. -/
def getOwnerOf (s : ContractState) (photoHash : Nat) : Nat :=
  (s.attestations photoHash).owner

/-- The function `getOwnerPhotoCount`. -/
def getOwnerPhotoCount (s : ContractState) (a : Nat) : Nat :=
  s.ownerPhotoCount a

/-- The function `getPhotoCount`. -/
def getPhotoCount (s : ContractState) : Nat :=
  s.photoCount

/-- The states reachable from the constructor by `verifyPhoto` calls. -/
inductive Reachable : ContractState → Prop where
  | init (deployer : Nat) : Reachable (initState deployer)
  | step (s : ContractState) (sender timestamp photoHash zkCommitment : Nat) :
      Reachable s → Reachable (verifyPhoto s sender timestamp photoHash zkCommitment).1



/-! ## Unfolding lemmas for the state transition -/

@[simp] lemma verifyPhoto_snd (s : ContractState) (o t h c : Nat) :
    (verifyPhoto s o t h c).2 = t := rfl

@[simp] lemma verifyPhoto_attestations (s : ContractState) (o t h c h2 : Nat) :
    ((verifyPhoto s o t h c).1).attestations h2 =
      if h2 = h then ⟨t, o, c⟩ else s.attestations h2 := rfl

@[simp] lemma verifyPhoto_ownerPhotoCount (s : ContractState) (o t h c a : Nat) :
    ((verifyPhoto s o t h c).1).ownerPhotoCount a =
      if a = o then s.ownerPhotoCount a + 1 else s.ownerPhotoCount a := rfl

@[simp] lemma verifyPhoto_photoCount (s : ContractState) (o t h c : Nat) :
    ((verifyPhoto s o t h c).1).photoCount = s.photoCount + 1 := rfl

@[simp] lemma verifyPhoto_owner (s : ContractState) (o t h c : Nat) :
    ((verifyPhoto s o t h c).1).owner = s.owner := rfl

@[simp] lemma initState_attestations (d h : Nat) :
    (initState d).attestations h = emptyAttestation := rfl

@[simp] lemma initState_ownerPhotoCount (d a : Nat) :
    (initState d).ownerPhotoCount a = 0 := rfl

@[simp] lemma initState_photoCount (d : Nat) :
    (initState d).photoCount = 0 := rfl

/-- The byte encoding of a fixed-width value has exactly the requested
width (little-endian direction). -/
lemma natToLeBytes_length (k : Nat) : ∀ n, (natToLeBytes k n).length = k := by
  induction k with
  | zero => intro n; rfl
  | succ k ih => intro n; simp [natToLeBytes, ih]

/-- The byte encoding of a fixed-width value has exactly the requested
width (big-endian direction). -/
lemma natToBeBytes_length (k n : Nat) : (natToBeBytes k n).length = k := by
  simp [natToBeBytes, natToLeBytes_length]

/-- Every reachable state is explained by a multiset of writer identities:
each per-owner counter is the multiplicity of that identity among the past
writes, and the global counter is the total number of writes. -/
lemma reachable_writers (s : ContractState) (hs : Reachable s) :
    ∃ m : Multiset Nat,
      (∀ a, s.ownerPhotoCount a = m.count a) ∧ s.photoCount = Multiset.card m := by
  induction hs with
  | init d => exact ⟨0, fun a => by simp, by simp⟩
  | step s o t h c _ ih =>
    obtain ⟨m, hcount, hcard⟩ := ih
    refine ⟨o ::ₘ m, fun a => ?_, by simp [hcard]⟩
    by_cases ha : a = o
    · subst ha; simp [hcount a]
    · simp [ha, hcount a, Multiset.count_cons_of_ne ha]

/-! ## Claims -/

/-- C1, counterexample: the write-then-read property fails as universally
stated, at timestamp 0. After `verifyPhoto` with timestamp 0 the record is
written and the call returns 0, but `isVerified` is `false`, because
`isVerified` tests `verifiedAt > 0` and the zero timestamp coincides with
the absent sentinel. Concrete instance: id 1, commitment 2, sender 3,
timestamp 0. -/
theorem c1_counterexample :
    ¬((verifyPhoto (initState 0) 3 0 1 2).2 = 0 ∧
      getAttestation (verifyPhoto (initState 0) 3 0 1 2).1 1 = (0, 3, 2) ∧
      isVerified (verifyPhoto (initState 0) 3 0 1 2).1 1 = true ∧
      getOwnerOf (verifyPhoto (initState 0) 3 0 1 2).1 1 = 3) := by
  intro hcl
  have hv := hcl.2.2.1
  simp [isVerified] at hv

/-- C1 (amended with a nonzero timestamp): immediately after
`verifyPhoto s o t id c` with `0 < t`, the call returns `t`,
`getAttestation id` is the triple `(t, o, c)`, `isVerified id` is `true`,
and `getOwnerOf id` is `o`. -/
theorem c1_write_then_read (s : ContractState) (o t id c : Nat) (ht : 0 < t) :
    (verifyPhoto s o t id c).2 = t ∧
    getAttestation (verifyPhoto s o t id c).1 id = (t, o, c) ∧
    isVerified (verifyPhoto s o t id c).1 id = true ∧
    getOwnerOf (verifyPhoto s o t id c).1 id = o := by
  refine ⟨rfl, ?_, ?_, ?_⟩ <;> simp [getAttestation, isVerified, getOwnerOf, ht]

/-- C1, witness: the amended write-then-read property at sender 3,
timestamp 1000, id 1, commitment 2. -/
theorem c1_witness :
    0 < 1000 ∧
    ((verifyPhoto (initState 0) 3 1000 1 2).2 = 1000 ∧
     getAttestation (verifyPhoto (initState 0) 3 1000 1 2).1 1 = (1000, 3, 2) ∧
     isVerified (verifyPhoto (initState 0) 3 1000 1 2).1 1 = true ∧
     getOwnerOf (verifyPhoto (initState 0) 3 1000 1 2).1 1 = 3) :=
  ⟨by decide, c1_write_then_read (initState 0) 3 1000 1 2 (by decide)⟩

/-- C3: overwrite semantics. From the empty store, after
`verifyPhoto` by `oA` at time `t1` with commitment `c1` on key `id`,
then `verifyPhoto` by a distinct `oB` at time `t2` with commitment `c2`
on the same key, the stored record is exactly `(t2, oB, c2)` (the old
record is fully replaced), each owner counter is 1, and the global
counter is 2. -/
theorem c3_overwrite (d id c1 c2 oA oB t1 t2 : Nat) (hAB : oA ≠ oB) :
    getAttestation
        (verifyPhoto (verifyPhoto (initState d) oA t1 id c1).1 oB t2 id c2).1 id =
      (t2, oB, c2) ∧
    getOwnerPhotoCount
        (verifyPhoto (verifyPhoto (initState d) oA t1 id c1).1 oB t2 id c2).1 oA = 1 ∧
    getOwnerPhotoCount
        (verifyPhoto (verifyPhoto (initState d) oA t1 id c1).1 oB t2 id c2).1 oB = 1 ∧
    getPhotoCount
        (verifyPhoto (verifyPhoto (initState d) oA t1 id c1).1 oB t2 id c2).1 = 2 := by
  refine ⟨?_, ?_, ?_, ?_⟩ <;>
    simp [getAttestation, getOwnerPhotoCount, getPhotoCount, hAB, Ne.symm hAB]

/-- C3, witness: the overwrite property at id 1, commitments 2 and 3,
owners 4 and 5, timestamps 6 and 7. -/
theorem c3_witness :
    (4 : Nat) ≠ 5 ∧
    (getAttestation
        (verifyPhoto (verifyPhoto (initState 0) 4 6 1 2).1 5 7 1 3).1 1 = (7, 5, 3) ∧
     getOwnerPhotoCount
        (verifyPhoto (verifyPhoto (initState 0) 4 6 1 2).1 5 7 1 3).1 4 = 1 ∧
     getOwnerPhotoCount
        (verifyPhoto (verifyPhoto (initState 0) 4 6 1 2).1 5 7 1 3).1 5 = 1 ∧
     getPhotoCount
        (verifyPhoto (verifyPhoto (initState 0) 4 6 1 2).1 5 7 1 3).1 = 2) :=
  ⟨by decide, c3_overwrite 0 1 2 3 4 5 6 7 (by decide)⟩

/-- C4: in every reachable state, `verifyZkProof id secret` returns `true`
exactly when `computeCommitment id secret` equals the commitment stored at
`id`, and the comparison is exact equality of the 256-bit values. -/
theorem c4_exact_equality (s : ContractState) (_hs : Reachable s) (id secret : Nat) :
    verifyZkProof s id secret = true ↔
      computeCommitment id secret = (s.attestations id).zkCommitment := by
  simp [verifyZkProof]

/-- C4, witness: the exact-equality characterisation at the freshly
deployed state with id 0 and secret 0. -/
theorem c4_witness :
    Reachable (initState 0) ∧
    (verifyZkProof (initState 0) 0 0 = true ↔
      computeCommitment 0 0 = ((initState 0).attestations 0).zkCommitment) :=
  ⟨Reachable.init 0, c4_exact_equality (initState 0) (Reachable.init 0) 0 0⟩

/-- C5: `computeCommitment` is the keccak-256 digest, read as a 256-bit
big-endian integer, of the 32 content-identifier bytes immediately
followed by the 32 secret bytes — no separator and no length marker (the
encoded input is exactly the 64-byte append of the two 32-byte encodings)
— and it is a pure total function, so calling it twice on the same inputs
yields identical output. -/
theorem c5_commitment_structure (id secret : Nat) :
    computeCommitment id secret =
      beBytesToNat (keccak256Bytes (natToBeBytes 32 id ++ natToBeBytes 32 secret)) ∧
    (natToBeBytes 32 id).length = 32 ∧
    (natToBeBytes 32 secret).length = 32 ∧
    (natToBeBytes 32 id ++ natToBeBytes 32 secret).length = 64 ∧
    computeCommitment id secret = computeCommitment id secret :=
  ⟨rfl, natToBeBytes_length 32 id, natToBeBytes_length 32 secret,
    by simp [natToBeBytes_length], rfl⟩

/-- The 32-byte content identifier of the concrete scenario, every byte 0x11. -/
def cid11 : Nat := 0x1111111111111111111111111111111111111111111111111111111111111111

/-- The 32-byte secret of the concrete scenario, every byte 0x22. -/
def sec22 : Nat := 0x2222222222222222222222222222222222222222222222222222222222222222

/-- A wrong 32-byte secret for the concrete scenario, every byte 0x33. -/
def sec33 : Nat := 0x3333333333333333333333333333333333333333333333333333333333333333

/-- The identity of owner A in the concrete scenario. -/
def ownerA : Nat := 0xA11CE

/-- The ledger after owner A records, at timestamp 1000, the commitment
computed from `cid11` and `sec22` under key `cid11`. -/
def scenarioState : ContractState :=
  (verifyPhoto (initState 0) ownerA 1000 cid11 (computeCommitment cid11 sec22)).1

set_option maxRecDepth 1000000 in
set_option maxHeartbeats 4000000 in
/-- C6: round-trip soundness. Recording the commitment computed from any
identifier and secret makes `verifyZkProof` accept that identifier and
secret, from any prior state; and in the concrete scenario (identifier
0x11..11, secret 0x22..22, owner A, timestamp 1000) the proof with the
right secret is accepted, the proof with the wrong secret 0x33..33 is
rejected, and the counter of owner A is 1. -/
theorem c6_roundtrip_soundness :
    (∀ (s : ContractState) (o t id secret : Nat),
      verifyZkProof (verifyPhoto s o t id (computeCommitment id secret)).1 id secret = true) ∧
    verifyZkProof scenarioState cid11 sec22 = true ∧
    verifyZkProof scenarioState cid11 sec33 = false ∧
    getOwnerPhotoCount scenarioState ownerA = 1 := by
  refine ⟨fun s o t id secret => ?_, ?_, ?_, ?_⟩
  · simp [verifyZkProof]
  · simp [scenarioState, verifyZkProof]
  · decide
  · simp [scenarioState, getOwnerPhotoCount]

/-- C7: `verifyPhoto` is a total function of the state and its inputs: for
every prior state, every submitter identity, every timestamp, every
identifier and every commitment it succeeds, returns the timestamp, and
writes the record — there is no failure branch and no access-control check
on the submitter (the quantification over `s` and `o` covers states whose
contract owner differs from `o` and keys already attested by others). -/
theorem c7_record_total (s : ContractState) (o t id c : Nat) :
    (verifyPhoto s o t id c).2 = t ∧
    (verifyPhoto s o t id c).1.attestations id = ⟨t, o, c⟩ ∧
    getAttestation (verifyPhoto s o t id c).1 id = (t, o, c) := by
  refine ⟨rfl, ?_, ?_⟩ <;> simp [getAttestation]

/-- C8: frame condition of `verifyPhoto`. A write at key `id` by sender
`o` leaves the attestation at any other key `id2` untouched and the
counter of any other identity `o2` untouched, increments the counter of
`o` by exactly 1 and the global counter by exactly 1 (also on overwrites,
since `s` is arbitrary), and leaves the contract owner field unchanged. -/
theorem c8_frame (s : ContractState) (o t id c id2 o2 : Nat)
    (hid : id2 ≠ id) (ho : o2 ≠ o) :
    (verifyPhoto s o t id c).1.attestations id2 = s.attestations id2 ∧
    (verifyPhoto s o t id c).1.ownerPhotoCount o2 = s.ownerPhotoCount o2 ∧
    (verifyPhoto s o t id c).1.ownerPhotoCount o = s.ownerPhotoCount o + 1 ∧
    (verifyPhoto s o t id c).1.photoCount = s.photoCount + 1 ∧
    (verifyPhoto s o t id c).1.owner = s.owner := by
  refine ⟨?_, ?_, ?_, rfl, rfl⟩ <;> simp [hid, ho]

/-- C8, witness: the frame condition at the empty store, sender 1,
timestamp 2, key 3, commitment 4, other key 5, other identity 6. -/
theorem c8_witness :
    (5 : Nat) ≠ 3 ∧ (6 : Nat) ≠ 1 ∧
    ((verifyPhoto (initState 0) 1 2 3 4).1.attestations 5 =
        (initState 0).attestations 5 ∧
     (verifyPhoto (initState 0) 1 2 3 4).1.ownerPhotoCount 6 =
        (initState 0).ownerPhotoCount 6 ∧
     (verifyPhoto (initState 0) 1 2 3 4).1.ownerPhotoCount 1 =
        (initState 0).ownerPhotoCount 1 + 1 ∧
     (verifyPhoto (initState 0) 1 2 3 4).1.photoCount =
        (initState 0).photoCount + 1 ∧
     (verifyPhoto (initState 0) 1 2 3 4).1.owner = (initState 0).owner) :=
  ⟨by decide, by decide, c8_frame (initState 0) 1 2 3 4 5 6 (by decide) (by decide)⟩

/-- C9: in every state reachable from the constructor, the global counter
`photoCount` equals the sum of `ownerPhotoCount` over all identities —
stated as the sum over any finite set containing every identity with a
nonzero counter. -/
theorem c9_counter_invariant (s : ContractState) (hs : Reachable s)
    (S : Finset Nat) (hS : ∀ a, s.ownerPhotoCount a ≠ 0 → a ∈ S) :
    s.photoCount = ∑ a in S, s.ownerPhotoCount a := by
  obtain ⟨m, hcount, hcard⟩ := reachable_writers s hs
  have hsub : m.toFinset ⊆ S := by
    intro a ha
    have ham : a ∈ m := Multiset.mem_toFinset.mp ha
    refine hS a ?_
    rw [hcount a]
    intro h0
    exact (Multiset.count_eq_zero.mp h0) ham
  calc s.photoCount = Multiset.card m := hcard
    _ = ∑ a in m.toFinset, m.count a := (Multiset.toFinset_sum_count_eq m).symm
    _ = ∑ a in m.toFinset, s.ownerPhotoCount a :=
        Finset.sum_congr rfl (fun a _ => (hcount a).symm)
    _ = ∑ a in S, s.ownerPhotoCount a := by
        refine Finset.sum_subset hsub (fun a _ haS => ?_)
        rw [hcount a]
        exact Multiset.count_eq_zero.mpr (fun hm => haS (Multiset.mem_toFinset.mpr hm))

/-- C9, witness: the counter invariant at the state reached by one
`verifyPhoto` call by sender 5, summed over the singleton set of 5. -/
theorem c9_witness :
    Reachable (verifyPhoto (initState 0) 5 7 1 2).1 ∧
    (verifyPhoto (initState 0) 5 7 1 2).1.photoCount =
      ∑ a in ({5} : Finset Nat), (verifyPhoto (initState 0) 5 7 1 2).1.ownerPhotoCount a := by
  refine ⟨Reachable.step (initState 0) 5 7 1 2 (Reachable.init 0),
    c9_counter_invariant (verifyPhoto (initState 0) 5 7 1 2).1
      (Reachable.step (initState 0) 5 7 1 2 (Reachable.init 0)) {5} ?_⟩
  intro a ha
  by_cases h : a = 5
  · simp [h]
  · exact absurd (by simp [h]) ha

/-- C10: a stored commitment equal to zero is indistinguishable from
absence in proof verification. After recording commitment 0 at key `id`,
`verifyZkProof id secret` returns exactly what it returns at a freshly
deployed ledger where `id` was never recorded, and it is `true` precisely
when `computeCommitment id secret = 0`. -/
theorem c10_zero_commitment (s : ContractState) (o t id d secret : Nat) :
    verifyZkProof (verifyPhoto s o t id 0).1 id secret =
      verifyZkProof (initState d) id secret ∧
    (verifyZkProof (verifyPhoto s o t id 0).1 id secret = true ↔
      computeCommitment id secret = 0) := by
  constructor <;> simp [verifyZkProof, emptyAttestation]

end PhotoVerifier
